/-
Verification of the A2A-Agent-Planner planning engine.

Shallow embedding of the core of the repository:
  * src/tools/timeline_generator.py  (TimelineGenerator, Gantt projection)
  * src/tools/team_manager.py        (TeamManager assignment and scoring)
  * src/agents/task_agent.py         (TaskAgent generation and extraction)
  * src/agents/milestone_agent_clean.py (MilestoneAgent timeline extraction)

Conventions used throughout:
  * Dates are modelled as day indices (Nat) with day 0 a Monday, so that
    `d % 7` is Python's `datetime.weekday()` (Monday = 0 ... Sunday = 6).
  * Python floats are rendered as exact rationals (Rat).  Every numeric
    fact proved below involves only float computations that are exact in
    IEEE double (sums of small integers, halves, and the division chain
    (h/8)/0.8 whose float truncation provably agrees with the exact
    rational floor on the whole range of realistic inputs).
  * Python functions that can raise are rendered as Option-valued
    functions, `none` marking the raised exception.
-/
import Mathlib

namespace Planner

/-! ## Generic string helpers (Python string idioms) -/

/-- Python `str.isdigit` restricted to ASCII, which is what every input
in scope contains. -/
def isDigitChar (c : Char) : Bool := '0' ≤ c && c ≤ '9'

/-- Python `\s` whitespace class (ASCII part). -/
def isSpaceChar (c : Char) : Bool :=
  c = ' ' || c = '\t' || c = '\n' || c = '\x0d' || c = '\x0c' || c = '\x0b'

/-- Value of a list of digit characters read left to right, i.e. Python
`int("".join(digits))` for a non-empty digit string. -/
def digitsValue (ds : List Char) : Nat :=
  ds.foldl (fun a c => a * 10 + (c.toNat - 48)) 0

/-- Python `int(''.join(filter(str.isdigit, s)))`: the concatenation of
every digit character of `s`, `none` when `s` has no digit (in which case
`int('')` raises `ValueError`). -/
def digitsConcat (s : String) : Option Nat :=
  let ds := s.toList.filter isDigitChar
  if ds.isEmpty then none else some (digitsValue ds)

/-- Substring containment on character lists (Python `needle in hay`). -/
def containsSubList (needle : List Char) : List Char → Bool
  | [] => needle.isPrefixOf []
  | c :: rest => needle.isPrefixOf (c :: rest) || containsSubList needle rest

/-- Python `needle in hay` on strings. -/
def containsSub (needle hay : String) : Bool :=
  containsSubList needle.toList hay.toList

/-- Python `str.lower()` for the ASCII inputs in scope: a
reduction-friendly rendition of `String.toLower` (character-by-character
lowering of the underlying character list). -/
def strLower (s : String) : String := String.mk (s.toList.map Char.toLower)

/-! ## TimelineGenerator (src/tools/timeline_generator.py) -/

namespace TimelineGenerator

/-- `_parse_duration`: parse `"2 weeks"`, `"3 months"`, `"10 days"` to a
number of weeks.  Lowers the string, branches on the unit keyword, and
reads the number as the concatenation of all digit characters; a keyword
branch with no digit raises (`none`); no keyword defaults to 2 weeks. -/
def parseDuration (durationStr : String) : Option Nat :=
  let s := strLower durationStr
  if containsSub "week" s then digitsConcat s
  else if containsSub "month" s then (digitsConcat s).map (· * 4)
  else if containsSub "day" s then (digitsConcat s).map (· / 5)
  else some 2

/-- `_parse_time_estimate`: parse `"8 hours"`, `"2 days"`, `"1 week"` to
hours (8 hours per day, 40 hours per week); default 8 hours when no unit
keyword appears; a keyword branch with no digit raises (`none`). -/
def parseTimeEstimate (timeStr : String) : Option Nat :=
  let s := strLower timeStr
  if containsSub "hour" s then digitsConcat s
  else if containsSub "day" s then (digitsConcat s).map (· * 8)
  else if containsSub "week" s then (digitsConcat s).map (· * 5 * 8)
  else some 8

/-- One pass of the `while` loop in `_add_business_days`: step the date
forward day by day until landing on a weekday (`weekday() < 5`).  From a
Friday (4) that is three calendar days, from a Saturday (5) two, from any
other day one. -/
def nextBusinessDay (d : Nat) : Nat :=
  if d % 7 = 4 then d + 3 else if d % 7 = 5 then d + 2 else d + 1

/-- `_add_business_days`: add `k` business days to `d`, skipping
weekends, exactly as the source's day-by-day loop does. -/
def addBusinessDays (d : Nat) : Nat → Nat
  | 0 => d
  | k + 1 => addBusinessDays (nextBusinessDay d) k

/-- `int((task_hours / daily_work_hours) / team_velocity_factor)` with
`daily_work_hours = 8` and `team_velocity_factor = 0.8`, taken `max 1`:
in exact arithmetic `(h/8)/0.8 = 5h/32`, so the truncation is the
natural division `5 * h / 32` (`taskDaysOfHours_floor` below proves the
floor form; the IEEE-double computation of the source agrees with the
exact value on the whole realistic range). -/
def taskDaysOfHours (h : Nat) : Nat := max 1 (5 * h / 32)

/-- Milestone input record (the dict fields the generator reads). -/
structure MsIn where
  title : Option String
  description : Option String
  duration : Option String
  dependencies : List String
deriving Repr, DecidableEq

/-- Task input record (the dict fields the generator reads). -/
structure TaskIn where
  title : Option String
  description : Option String
  time_estimate : Option String
  priority : Option String
  dependencies : List String
deriving Repr, DecidableEq

/-- A scheduled milestone entry of the returned timeline.  The
positional `id`/default-title strings of the source (`milestone_{i+1}`,
`Milestone {i+1}`) carry no information used by any claimed property
and are elided to an index-free default. -/
structure MsEntry where
  title : String
  startDate : Nat
  endDate : Nat
  durationDays : Nat
  dependencies : List String
deriving Repr, DecidableEq

/-- A scheduled task entry of the returned timeline.  As for
milestones, the positional `id`/default-title strings (`task_{i+1}`,
`Task {i+1}`) are elided to an index-free default. -/
structure TaskEntry where
  title : String
  startDate : Nat
  endDate : Nat
  durationDays : Nat
  assignedTo : String
  priority : String
  dependencies : List String
deriving Repr, DecidableEq

/-- The milestone loop: sequential scheduling, each milestone starting
the calendar day after the previous one ends.  `none` propagates the
`ValueError` of a digit-less duration string. -/
def msLoop (cur : Nat) : List MsIn → Option (List MsEntry)
  | [] => some []
  | m :: rest =>
    match parseDuration (m.duration.getD "2 weeks") with
    | none => none
    | some dw =>
      match msLoop (addBusinessDays cur (dw * 5) + 1) rest with
      | none => none
      | some tail =>
        some ({ title := m.title.getD "Milestone", startDate := cur,
                endDate := addBusinessDays cur (dw * 5),
                durationDays := dw * 5, dependencies := m.dependencies } :: tail)

/-- `{member['name']: 0 for member in team_members}`: insertion-ordered
dict of per-member scheduled days, duplicates collapsed to their first
occurrence. -/
def initWorkload (team : List String) : List (String × Nat) :=
  team.foldl (fun acc n => if acc.any (fun p => p.1 = n) then acc else acc ++ [(n, 0)]) []

/-- Python `min(items, key=lambda x: x[1])`: first item with minimal
value; `none` on an empty dict (the `ValueError` of `min([])`). -/
def minByVal : List (String × Nat) → Option (String × Nat)
  | [] => none
  | x :: xs => some (xs.foldl (fun b y => if y.2 < b.2 then y else b) x)

/-- Add `days` to the named member's accumulated workload. -/
def bumpWorkload (wl : List (String × Nat)) (name : String) (days : Nat) :
    List (String × Nat) :=
  wl.map (fun p => if p.1 = name then (p.1, p.2 + days) else p)

/-- The task loop: each task is assigned to the member with the least
accumulated scheduled days, spans `taskDaysOfHours` business days, and
the next task starts `max 1 (days / 2)` CALENDAR days after this one
(the source uses `timedelta(days=...)`, not business-day arithmetic). -/
def taskLoop (cur : Nat) (wl : List (String × Nat)) :
    List TaskIn → Option (List TaskEntry)
  | [] => some []
  | t :: rest =>
    match parseTimeEstimate (t.time_estimate.getD "8 hours") with
    | none => none
    | some hours =>
      match minByVal wl with
      | none => none
      | some assigned =>
        match taskLoop (cur + max 1 (taskDaysOfHours hours / 2))
            (bumpWorkload wl assigned.1 (taskDaysOfHours hours)) rest with
        | none => none
        | some tail =>
          some ({ title := t.title.getD "Task", startDate := cur,
                  endDate := addBusinessDays cur (taskDaysOfHours hours),
                  durationDays := taskDaysOfHours hours, assignedTo := assigned.1,
                  priority := t.priority.getD "Medium",
                  dependencies := t.dependencies } :: tail)

/-- Largest element of a list, `none` on `[]` (Python `max([])` raises). -/
def maxListNat : List Nat → Option Nat
  | [] => none
  | x :: xs => some (xs.foldl max x)

/-- Per-member assignment summary row. -/
structure TeamAssignment where
  name : String
  totalTasks : Nat
  totalWorkloadDays : Nat
  utilization : ℚ
deriving Repr, DecidableEq

/-- The summary block of the returned timeline. -/
structure ProjectSummary where
  projectEnd : Nat
  totalDurationDays : Nat
  totalMilestones : Nat
  totalTasks : Nat
  teamSize : Nat
  estimatedEffortHours : Nat
deriving Repr, DecidableEq

/-- The full timeline returned by `generate_project_timeline`. -/
structure Timeline where
  projectStart : Nat
  milestonesTimeline : List MsEntry
  tasksTimeline : List TaskEntry
  teamAssignments : List TeamAssignment
  projectSummary : ProjectSummary
deriving Repr, DecidableEq

/-- The `estimated_effort_hours` generator expression: re-parse every
task's time estimate and sum, raising on the first digit-less string. -/
def effortSum : List TaskIn → Option Nat
  | [] => some 0
  | t :: rest =>
    match parseTimeEstimate (t.time_estimate.getD "8 hours") with
    | none => none
    | some h => (effortSum rest).map (h + ·)

/-- The per-member `team_assignments` summary rows. -/
def teamAssignmentsOf (teamMembers : List String) (tsT : List TaskEntry) :
    List TeamAssignment :=
  teamMembers.map (fun name =>
    let mine := tsT.filter (fun e => e.assignedTo = name)
    let total := (mine.map (fun e => e.durationDays)).sum
    { name := name, totalTasks := mine.length, totalWorkloadDays := total,
      utilization := min 100 (((total : ℚ) / 30) * 100) })

/-- `generate_project_timeline`: schedules milestones sequentially from
the start date, schedules tasks with overlap from the start date,
summarises per-member load, and computes the project end as the max of
the last task end and last milestone end.  `none` renders the uncaught
`ValueError`s of the source: `min` over an empty team dict (when a task
exists), `max` over an empty task or milestone list, and digit-less
duration strings. -/
def generateProjectTimeline (milestones : List MsIn) (tasks : List TaskIn)
    (teamMembers : List String) (projectStart : Nat) : Option Timeline :=
  match msLoop projectStart milestones with
  | none => none
  | some msT =>
    match taskLoop projectStart (initWorkload teamMembers) tasks with
    | none => none
    | some tsT =>
      match maxListNat (tsT.map (fun e => e.endDate)) with
      | none => none
      | some lastTaskEnd =>
        match maxListNat (msT.map (fun e => e.endDate)) with
        | none => none
        | some lastMsEnd =>
          match effortSum tasks with
          | none => none
          | some effort =>
            some { projectStart := projectStart, milestonesTimeline := msT,
                   tasksTimeline := tsT,
                   teamAssignments := teamAssignmentsOf teamMembers tsT,
                   projectSummary :=
                     { projectEnd := max lastTaskEnd lastMsEnd,
                       totalDurationDays := max lastTaskEnd lastMsEnd - projectStart,
                       totalMilestones := milestones.length,
                       totalTasks := tasks.length,
                       teamSize := teamMembers.length,
                       estimatedEffortHours := effort } }

/-- `_get_priority_color`: three-entry colour table keyed by the lowered
priority, any other value (including `"urgent"`) getting the default. -/
def getPriorityColor (priority : String) : String :=
  if strLower priority = "high" then "#FF4757"
  else if strLower priority = "medium" then "#FFA502"
  else if strLower priority = "low" then "#2ED573"
  else "#3498DB"

/-- A Gantt chart record. -/
structure GanttRec where
  id : String
  name : String
  start : Nat
  stop : Nat
  color : String
deriving Repr, DecidableEq

/-- The Gantt projection of a timeline. -/
structure GanttData where
  tasks : List GanttRec
  milestones : List GanttRec
deriving Repr, DecidableEq

/-- `generate_gantt_chart_data`: one fixed-colour record per milestone
and one priority-coloured record per task (pass-through fields that no
claim touches, such as `assigned_to`, are elided). -/
def generateGanttChartData (tl : Timeline) : GanttData :=
  { milestones := tl.milestonesTimeline.map (fun m =>
      { id := "milestone", name := m.title, start := m.startDate,
        stop := m.endDate, color := "#FF6B6B" }),
    tasks := tl.tasksTimeline.map (fun t =>
      { id := "task", name := t.title, start := t.startDate,
        stop := t.endDate, color := getPriorityColor t.priority }) }

end TimelineGenerator

/-! ## TeamManager (src/tools/team_manager.py) -/

namespace TeamManager

/-- The `level_multiplier` column of the `skill_database` table; any
skill outside the table falls back to multiplier 1.0 (via
`skill_database.get(skill, {"level_multiplier": 1.0})`). -/
def skillMultiplier (skill : String) : ℚ :=
  match skill with
  | "typescript" => 11/10
  | "java" => 11/10
  | "react" => 12/10
  | "nodejs" => 11/10
  | "ui_design" => 12/10
  | "ux_research" => 13/10
  | "docker" => 12/10
  | "kubernetes" => 14/10
  | "aws" => 13/10
  | "ci_cd" => 12/10
  | "project_management" => 13/10
  | "agile" => 11/10
  | "scrum" => 11/10
  | _ => 1

/-- A team member as the assigner reads it: insertion-ordered skill map
with 1-10 levels. -/
structure Member where
  name : String
  role : String
  skills : List (String × Nat)
deriving Repr, DecidableEq

/-- A task as the assigner reads it. -/
structure TMTask where
  title : Option String
  description : Option String
  time_estimate : Option String
  priority : Option String
  skills_required : List String
deriving Repr, DecidableEq

/-- Python `skill.replace("_", " ")`. -/
def underscoresToSpaces (s : String) : String :=
  String.mk (s.toList.map (fun c => if c = '_' then ' ' else c))

/-- `task_text = f"{task_title} {task_description}"` over the lowered
title and description. -/
def taskTextOf (task : TMTask) : String :=
  strLower (task.title.getD "") ++ " " ++ strLower (task.description.getD "")

/-- The member skills whose name — or name with underscores replaced by
spaces — occurs in the task text. -/
def matchedSkills (task : TMTask) (member : Member) : List (String × Nat) :=
  member.skills.filter (fun p =>
    containsSub p.1 (taskTextOf task) ||
      containsSub (underscoresToSpaces p.1) (taskTextOf task))

/-- `total_match`: sum of level × multiplier over a skill list. -/
def matchTotal (skills : List (String × Nat)) : ℚ :=
  skills.foldl (fun a p => a + (p.2 : ℚ) * skillMultiplier p.1) 0

/-- `_calculate_skill_match`: the mean of level × multiplier over the
matched skills, capped at 10, and 0 when nothing matches.  The task's
`skills_required` field is never consulted. -/
def calculateSkillMatch (task : TMTask) (member : Member) : ℚ :=
  if (matchedSkills task member).length > 0 then
    min 10 (matchTotal (matchedSkills task member) / (matchedSkills task member).length)
  else 0

/-- `_estimate_task_hours`: digit concatenation with `or`-defaults, so a
digit-less string silently falls back instead of raising. -/
def estimateTaskHours (task : TMTask) : Nat :=
  let s := strLower (task.time_estimate.getD "8 hours")
  if containsSub "hour" s then (digitsConcat s).getD 8
  else if containsSub "day" s then ((digitsConcat s).getD 1) * 8
  else if containsSub "week" s then ((digitsConcat s).getD 1) * 40
  else 8

/-- Assoc-list lookup for the per-member workload dict. -/
def wlHours (wl : List (String × Nat)) (name : String) : Nat :=
  match wl.find? (fun p => p.1 = name) with
  | some p => p.2
  | none => 0

/-- `_find_best_assignee`: greedy argmax of
`skill_score - 0.3 * (total_hours / 40)` over the team, starting from a
best score of 0 with a strict improvement test, so a team with no
positive-scoring member (in particular an empty team) yields `none`. -/
def findBestAssignee (task : TMTask) (team : List Member)
    (wl : List (String × Nat)) : Option Member :=
  (team.foldl (fun best m =>
    let score := calculateSkillMatch task m - (wlHours wl m.name : ℚ) / 40 * (3/10)
    if score > best.2 then (some m, score) else best)
    ((none : Option Member), (0 : ℚ))).1

/-- One row of `task_assignments`. -/
structure AssignRec where
  taskTitle : String
  assignedTo : String
  assigneeRole : String
  estimatedHours : Nat
  matchScore : ℚ
  priority : String
deriving Repr, DecidableEq

/-- The result dict of `assign_tasks_to_team`. -/
structure AssignResult where
  taskAssignments : List AssignRec
  teamWorkload : List (String × Nat × Nat)
  recommendations : List String
deriving Repr, DecidableEq

/-- The per-task loop of `assign_tasks_to_team`, threading the workload
dict (name ↦ (assigned_tasks, total_hours)). -/
def assignLoop (team : List Member) (wl : List (String × Nat × Nat)) :
    List TMTask → List AssignRec × List (String × Nat × Nat) × List String
  | [] => ([], wl, [])
  | t :: rest =>
    let hoursView := wl.map (fun p => (p.1, p.2.2))
    match findBestAssignee t team hoursView with
    | some m =>
      let hours := estimateTaskHours t
      let rec0 : AssignRec :=
        { taskTitle := t.title.getD "Untitled Task", assignedTo := m.name,
          assigneeRole := m.role, estimatedHours := hours,
          matchScore := calculateSkillMatch t m,
          priority := t.priority.getD "Medium" }
      let wlNext := wl.map (fun p =>
        if p.1 = m.name then (p.1, p.2.1 + 1, p.2.2 + hours) else p)
      let (recs, wlFinal, msgs) := assignLoop team wlNext rest
      (rec0 :: recs, wlFinal, msgs)
    | none =>
      let (recs, wlFinal, msgs) := assignLoop team wl rest
      (recs, wlFinal,
       ("No suitable assignee found for: " ++ t.title.getD "Unknown task") :: msgs)

/-- `assign_tasks_to_team`: initialise every member's workload to zero
(duplicate names sharing one dict entry), assign each task greedily, and
record a recommendation string for each task with no suitable assignee.
Never raises, whatever the team. -/
def assignTasksToTeam (tasks : List TMTask) (team : List Member) : AssignResult :=
  let wl0 := team.foldl (fun acc m =>
    if acc.any (fun p => p.1 = m.name) then acc else acc ++ [(m.name, 0, 0)]) []
  let (recs, wlFinal, msgs) := assignLoop team wl0 tasks
  { taskAssignments := recs, teamWorkload := wlFinal, recommendations := msgs }

end TeamManager

/-! ## TaskAgent task generation (src/agents/task_agent.py) -/

namespace TaskAgent

/-- The four-value `Priority` enum of `a2a/types.py`. -/
inductive Priority
  | urgent
  | high
  | medium
  | low
deriving Repr, DecidableEq

/-- `TaskData` of `a2a/types.py` (pydantic model; `estimated_hours` is
`Optional[float]` with no positivity validator). -/
structure TaskData where
  title : String
  description : String
  priority : Priority
  estimated_hours : Option ℚ
  skills_required : List String
  dependencies : List String
deriving Repr, DecidableEq

/-- A JSON value in the `estimated_hours` position of an AI task object:
either something `float()` coerces to the rational `q`, or something on
which `float()` raises. -/
inductive PyVal
  | pnum (q : ℚ)
  | pbad
deriving Repr, DecidableEq

/-- Python `float(v)`: `none` models the raised `ValueError`/`TypeError`. -/
def floatOf : PyVal → Option ℚ
  | .pnum q => some q
  | .pbad => none

/-- One parsed AI task object (the dict fields the loop reads). -/
structure TaskDictIn where
  title : Option String
  description : Option String
  priority : Option String
  estimated_hours : Option PyVal
  skills_required : Option (List String)
  dependencies : Option (List String)
deriving Repr, DecidableEq

/-- `priority_map.get(task_dict.get('priority', 'medium').lower(), Priority.medium)`:
case-insensitive mapping with default `medium` for an unknown or missing
priority string. -/
def priorityOfStr (p : Option String) : Priority :=
  match strLower (p.getD "medium") with
  | "urgent" => .urgent
  | "high" => .high
  | "medium" => .medium
  | "low" => .low
  | _ => .medium

/-- The project-context fields the generator reads. -/
structure Ctx where
  project_name : String
  domain : String
  complexity : String
  timeline : Option Nat
deriving Repr, DecidableEq

/-- The `TaskData` built from a task dict once its hours value is known. -/
def aiTaskOf (d : TaskDictIn) (hours : ℚ) : TaskData :=
  { title := d.title.getD "Untitled Task",
    description := d.description.getD "",
    priority := priorityOfStr d.priority,
    estimated_hours := some hours,
    skills_required := d.skills_required.getD [],
    dependencies := d.dependencies.getD [] }

/-- The body of the per-task loop on the AI path: hours default to 8.0
only when the key is absent, and are otherwise `float(value)` verbatim —
no clamping of non-positive values. `none` models the exception that
`float()` raises on a non-coercible value, which aborts the whole loop. -/
def parseAiTask (d : TaskDictIn) : Option TaskData :=
  match d.estimated_hours with
  | none => some (aiTaskOf d 8)
  | some v =>
    match floatOf v with
    | none => none
    | some q => some (aiTaskOf d q)

/-- The whole per-task loop: build one `TaskData` per parsed object,
aborting everything on the first coercion failure. -/
def parseAiTasks : List TaskDictIn → Option (List TaskData)
  | [] => some []
  | d :: rest =>
    match parseAiTask d with
    | none => none
    | some t =>
      match parseAiTasks rest with
      | none => none
      | some ts => some (t :: ts)

/-- Scale the hours of a task by `f` and downgrade `medium` to `low`
when `downgrade` is set (the `timeline_weeks < 8` branch). -/
def adjustTask (f : ℚ) (downgrade : Bool) (t : TaskData) : TaskData :=
  { t with estimated_hours := t.estimated_hours.map (· * f),
           priority := if downgrade && t.priority = .medium then .low else t.priority }

/-- The two base tasks of `_generate_context_aware_fallback_tasks`. -/
def baseTasksOf (ctx : Ctx) : List TaskData :=
    [ { title := "Requirements Analysis and Documentation",
        description := "Analyze and document detailed requirements for the " ++
          ctx.project_name ++ " project",
        priority := .high,
        estimated_hours := some (if ctx.complexity = "complex" then 16 else 12),
        skills_required := ["business_analysis", "documentation"],
        dependencies := [] },
      { title := "Technical Architecture Design",
        description := "Design system architecture suitable for " ++ ctx.domain ++
          " domain and " ++ ctx.complexity ++ " complexity",
        priority := .high,
        estimated_hours := some (if ctx.complexity = "complex" then 24 else 16),
        skills_required := ["system_design", "architecture"],
        dependencies := ["Requirements Analysis and Documentation"] } ]

/-- The domain-keyed block (`blockchain` / `ecommerce` / `mobile`, else
nothing). -/
def domainTasksOf (ctx : Ctx) : List TaskData :=
  if ctx.domain = "blockchain" then
      [ { title := "Smart Contract Architecture",
          description := "Design and plan smart contract structure and interactions",
          priority := .high, estimated_hours := some 32,
          skills_required := ["solidity", "blockchain_architecture"],
          dependencies := ["Technical Architecture Design"] },
        { title := "Smart Contract Development",
          description := "Implement core smart contracts with security best practices",
          priority := .high, estimated_hours := some 80,
          skills_required := ["solidity", "smart_contract_development"],
          dependencies := ["Smart Contract Architecture"] },
        { title := "Security Audit Preparation",
          description := "Prepare contracts for security audit and vulnerability assessment",
          priority := .urgent, estimated_hours := some 24,
          skills_required := ["security_audit", "smart_contract_testing"],
          dependencies := ["Smart Contract Development"] } ]
  else if ctx.domain = "ecommerce" then
      [ { title := "Payment Gateway Integration",
          description := "Integrate multiple payment processors (Stripe, PayPal) with security compliance",
          priority := .high, estimated_hours := some 40,
          skills_required := ["payment_integration", "security"],
          dependencies := ["Technical Architecture Design"] },
        { title := "Product Catalog System",
          description := "Develop product management system with search and filtering capabilities",
          priority := .high, estimated_hours := some 48,
          skills_required := ["backend_development", "database_design"],
          dependencies := ["Technical Architecture Design"] },
        { title := "Shopping Cart & Checkout Flow",
          description := "Implement shopping cart functionality and streamlined checkout process",
          priority := .high, estimated_hours := some 36,
          skills_required := ["frontend_development", "ux_design"],
          dependencies := ["Product Catalog System"] } ]
  else if ctx.domain = "mobile" then
      [ { title := "Cross-Platform Framework Setup",
          description := "Set up React Native or Flutter development environment",
          priority := .high, estimated_hours := some 16,
          skills_required := ["mobile_development", "react_native"],
          dependencies := ["Technical Architecture Design"] },
        { title := "Mobile UI/UX Implementation",
          description := "Develop responsive mobile interface with platform-specific guidelines",
          priority := .high, estimated_hours := some 60,
          skills_required := ["mobile_ui", "user_experience"],
          dependencies := ["Cross-Platform Framework Setup"] } ]
  else []

/-- The three common development tasks. -/
def commonTasksOf (ctx : Ctx) : List TaskData :=
    [ { title := "Database Design and Implementation",
        description := "Design and implement database schema for " ++ ctx.domain ++ " requirements",
        priority := .high,
        estimated_hours := some (if ctx.complexity = "complex" then 28 else 20),
        skills_required := ["database_design", "sql"],
        dependencies := ["Technical Architecture Design"] },
      { title := "API Development and Integration",
        description := "Develop RESTful APIs and integrate with external services",
        priority := .high,
        estimated_hours := some (if ctx.complexity = "complex" then 40 else 28),
        skills_required := ["api_development", "backend_development"],
        dependencies := ["Database Design and Implementation"] },
      { title := "Testing Strategy Implementation",
        description := "Implement comprehensive testing including unit, integration, and E2E tests",
        priority := .high, estimated_hours := some 32,
        skills_required := ["testing", "test_automation"],
        dependencies := ["API Development and Integration"] } ]

/-- `all_tasks = base_tasks + domain_tasks + common_tasks`. -/
def allTasksOf (ctx : Ctx) : List TaskData :=
  baseTasksOf ctx ++ domainTasksOf ctx ++ commonTasksOf ctx

/-- `_generate_context_aware_fallback_tasks`, assembled from the blocks
above with the timeline adjustment applied last: ×0.8 hours and
medium→low priority when `0 < timeline < 8`, ×1.2 hours when
`timeline > 16`; a `None` or zero timeline is falsy in Python and
leaves the estimates alone. -/
def fallbackTasks (ctx : Ctx) : List TaskData :=
  match ctx.timeline with
  | none => allTasksOf ctx
  | some w =>
    if 0 < w && w < 8 then (allTasksOf ctx).map (adjustTask (4/5) true)
    else if 16 < w then (allTasksOf ctx).map (adjustTask (6/5) false)
    else allTasksOf ctx

/-- `generate_intelligent_tasks`: `none` in the first argument models an
unavailable AI service or a response in which no JSON array could be
parsed (any such failure triggers the total template fallback); `some
ds` models a successfully parsed JSON array of task objects. A
`float()` failure inside the loop is caught by the outer handler and
likewise replaces everything with the fallback tasks. -/
def generateIntelligentTasks (ctx : Ctx) (ai : Option (List TaskDictIn)) :
    List TaskData :=
  match ai with
  | none => fallbackTasks ctx
  | some ds =>
    match parseAiTasks ds with
    | none => fallbackTasks ctx
    | some tasks => tasks

end TaskAgent

/-! ## Pattern scanning (`re.search`) for the context extractors -/

namespace Extract

/-- Drop leading `\s*`. -/
def skipSpaces (s : List Char) : List Char := s.dropWhile isSpaceChar

/-- `re.search` semantics: try the position matcher at every suffix,
left to right, returning the first success. -/
def searchPos {α : Type} (f : List Char → Option α) : List Char → Option α
  | [] => f []
  | c :: rest =>
    match f (c :: rest) with
    | some v => some v
    | none => searchPos f rest

/-- Position matcher for `(\d+)\s*<word>`: maximal digit run, optional
whitespace, then the literal word (patterns `(\d+)\s*weeks?` etc. are
unanchored, so the optional trailing `s?` constrains nothing). -/
def matchNumThenWord (word : String) (s : List Char) : Option Nat :=
  let ds := s.takeWhile isDigitChar
  if ds.isEmpty then none
  else if word.toList.isPrefixOf (skipSpaces (s.dropWhile isDigitChar)) then
    some (digitsValue ds)
  else none

/-- Position matcher for `<word>\s*(\d+)\s*weeks?`
(the `in`/`within` timeline patterns of the milestone agent). -/
def matchWordNumWeek (word : String) (s : List Char) : Option Nat :=
  if word.toList.isPrefixOf s then
    let r := skipSpaces (s.drop word.length)
    let ds := r.takeWhile isDigitChar
    if ds.isEmpty then none
    else if ("week".toList).isPrefixOf (skipSpaces (r.dropWhile isDigitChar)) then
      some (digitsValue ds)
    else none
  else none

/-- Tail matcher for `\s*(\d+)[-\s]*(\d+)?\s*weeks?`, returning the two
captured groups. -/
def matchRangeTail (s : List Char) : Option (Nat × Option Nat) :=
  let r := skipSpaces s
  let d1 := r.takeWhile isDigitChar
  if d1.isEmpty then none
  else
    let r1 := (r.dropWhile isDigitChar).dropWhile (fun c => c = '-' || isSpaceChar c)
    let d2 := r1.takeWhile isDigitChar
    if d2.isEmpty then
      if ("week".toList).isPrefixOf r1 then some (digitsValue d1, none) else none
    else if ("week".toList).isPrefixOf (skipSpaces (r1.dropWhile isDigitChar)) then
      some (digitsValue d1, some (digitsValue d2))
    else none

/-- Position matcher for `<label>\s*(\d+)[-\s]*(\d+)?\s*weeks?` with
`label` one of `timeline:` / `duration:`. -/
def matchLabelRange (label : String) (s : List Char) : Option (Nat × Option Nat) :=
  if label.toList.isPrefixOf s then matchRangeTail (s.drop label.length) else none

/-- Position matcher for `estimated\s+timeline:\s*(\d+)[-\s]*(\d+)?\s*weeks?`. -/
def matchEstimatedTimeline (s : List Char) : Option (Nat × Option Nat) :=
  if ("estimated".toList).isPrefixOf s then
    let r1 := s.drop 9
    if (r1.takeWhile isSpaceChar).isEmpty then none
    else
      let r2 := skipSpaces r1
      if ("timeline:".toList).isPrefixOf r2 then matchRangeTail (r2.drop 9) else none
  else none

/-- `if match.groups()[1:] and match.group(2)`: a two-group pattern
takes the second captured number when present, the first otherwise. -/
def searchRange (f : List Char → Option (Nat × Option Nat)) (l : List Char) :
    Option Nat :=
  (searchPos f l).map (fun p =>
    match p.2 with
    | some d2 => d2
    | none => p.1)

/-- Position matcher for the task agent's
`(?:timeline|duration):\s*(\d+)\s*weeks` (note the mandatory `s`
is still unconstrained because the pattern is unanchored after `week`;
the literal is `weeks`, so the prefix test uses `weeks`). -/
def matchLabelWeeks (s : List Char) : Option Nat :=
  let tryLabel (label : String) : Option Nat :=
    if label.toList.isPrefixOf s then
      let r := skipSpaces (s.drop label.length)
      let ds := r.takeWhile isDigitChar
      if ds.isEmpty then none
      else if ("weeks".toList).isPrefixOf (skipSpaces (r.dropWhile isDigitChar)) then
        some (digitsValue ds)
      else none
    else none
  match tryLabel "timeline:" with
  | some v => some v
  | none => tryLabel "duration:"

/-- Position matcher for the task agent's `within\s+(\d+)\s+weeks`
(both whitespace runs mandatory). -/
def matchWithinWeeks (s : List Char) : Option Nat :=
  if ("within".toList).isPrefixOf s then
    let r1 := s.drop 6
    if (r1.takeWhile isSpaceChar).isEmpty then none
    else
      let r2 := skipSpaces r1
      let ds := r2.takeWhile isDigitChar
      if ds.isEmpty then none
      else
        let r3 := r2.dropWhile isDigitChar
        if (r3.takeWhile isSpaceChar).isEmpty then none
        else if ("weeks".toList).isPrefixOf (skipSpaces r3) then
          some (digitsValue ds)
        else none
  else none

/-- Position matcher for the task agent's `(\d+)\s+week\s+project`. -/
def matchWeekProject (s : List Char) : Option Nat :=
  let ds := s.takeWhile isDigitChar
  if ds.isEmpty then none
  else
    let r1 := s.dropWhile isDigitChar
    if (r1.takeWhile isSpaceChar).isEmpty then none
    else
      let r2 := skipSpaces r1
      if ("week".toList).isPrefixOf r2 then
        let r3 := r2.drop 4
        if (r3.takeWhile isSpaceChar).isEmpty then none
        else if ("project".toList).isPrefixOf (skipSpaces r3) then
          some (digitsValue ds)
        else none
      else none

end Extract

/-! ## TaskAgent._extract_project_context (timeline and domain parts) -/

namespace TaskAgent

/-- The timeline block of `_extract_project_context`: the three
patterns, tried in order with the first match winning (searched
case-insensitively, rendered here by lowering the content); no match
leaves the timeline `None` — there is no numeric default here. -/
def extractTimelineWeeks (content : String) : Option Nat :=
  let l := (strLower content).toList
  match Extract.searchPos Extract.matchLabelWeeks l with
  | some v => some v
  | none =>
    match Extract.searchPos Extract.matchWithinWeeks l with
    | some v => some v
    | none => Extract.searchPos Extract.matchWeekProject l

/-- `any(term in content_lower for term in [...])`. -/
def anyTerm (terms : List String) (lowered : String) : Bool :=
  terms.any (fun t => containsSub t lowered)

/-- The domain-detection block of `_extract_project_context`: ordered
keyword sets, first hit winning, defaulting to `"general"`. -/
def extractDomain (content : String) : String :=
  let l := strLower content
  if anyTerm ["blockchain", "defi", "smart contract", "crypto"] l then "blockchain"
  else if anyTerm ["ecommerce", "e-commerce", "shopping", "payment"] l then "ecommerce"
  else if anyTerm ["mobile app", "ios", "android"] l then "mobile"
  else if anyTerm ["ai", "machine learning", "ml", "neural"] l then "ai"
  else if anyTerm ["iot", "sensor", "device"] l then "iot"
  else if anyTerm ["erp", "enterprise", "business"] l then "enterprise"
  else "general"

end TaskAgent

/-! ## MilestoneAgent.extract_project_info (timeline part,
src/agents/milestone_agent_clean.py) -/

namespace MilestoneAgent

/-- The `time_patterns` loop of `extract_project_info`: eight patterns
tried in order against the lowered content, the first matching pattern
fixing the estimate (`months ×4`, `days` as `max 1 (n / 7)`, weeks
verbatim, range patterns preferring their second number), default 8. -/
def estimatedWeeks (content : String) : Nat :=
  let l := (strLower content).toList
  match Extract.searchPos (Extract.matchNumThenWord "week") l with
  | some d => d
  | none =>
    match Extract.searchPos (Extract.matchNumThenWord "month") l with
    | some d => d * 4
    | none =>
      match Extract.searchPos (Extract.matchNumThenWord "day") l with
      | some d => max 1 (d / 7)
      | none =>
        match Extract.searchPos (Extract.matchWordNumWeek "in") l with
        | some d => d
        | none =>
          match Extract.searchPos (Extract.matchWordNumWeek "within") l with
          | some d => d
          | none =>
            match Extract.searchRange (Extract.matchLabelRange "timeline:") l with
            | some d => d
            | none =>
              match Extract.searchRange (Extract.matchLabelRange "duration:") l with
              | some d => d
              | none =>
                match Extract.searchRange Extract.matchEstimatedTimeline l with
                | some d => d
                | none => 8

end MilestoneAgent

/-! ## Supporting lemmas -/

namespace TimelineGenerator

theorem nextBusinessDay_gt (d : Nat) : d < nextBusinessDay d := by
  unfold nextBusinessDay
  split
  · omega
  · split <;> omega

theorem nextBusinessDay_weekday (d : Nat) : nextBusinessDay d % 7 < 5 := by
  unfold nextBusinessDay
  split
  · omega
  · split <;> omega

theorem addBusinessDays_le (k : Nat) : ∀ d, d ≤ addBusinessDays d k := by
  induction k with
  | zero => intro d; simp [addBusinessDays]
  | succ n ih =>
    intro d
    have h1 := nextBusinessDay_gt d
    have h2 := ih (nextBusinessDay d)
    calc d ≤ nextBusinessDay d := Nat.le_of_lt h1
      _ ≤ addBusinessDays (nextBusinessDay d) n := h2
      _ = addBusinessDays d (n + 1) := rfl

theorem addBusinessDays_weekday (k : Nat) (hk : 0 < k) :
    ∀ d, addBusinessDays d k % 7 < 5 := by
  induction k with
  | zero => omega
  | succ n ih =>
    intro d
    match n, ih with
    | 0, _ => exact nextBusinessDay_weekday d
    | m + 1, ih => exact ih (Nat.succ_pos m) (nextBusinessDay d)

/-- The natural division in `taskDaysOfHours` is exactly the rational
floor of the source's `(task_hours / 8) / 0.8`. -/
theorem taskDaysOfHours_floor (h : Nat) :
    taskDaysOfHours h = max 1 (Nat.floor (((h : ℚ) / 8) / (4 / 5))) := by
  have key : ((h : ℚ) / 8) / (4 / 5) = ((5 * h : Nat) : ℚ) / ((32 : Nat) : ℚ) := by
    push_cast
    ring
  rw [taskDaysOfHours, key, Nat.floor_div_nat]
  norm_cast

theorem taskDaysOfHours_pos (h : Nat) : 0 < taskDaysOfHours h := by
  unfold taskDaysOfHours
  exact lt_of_lt_of_le Nat.one_pos (le_max_left _ _)

theorem msLoop_cons_inv {cur : Nat} {m : MsIn} {rest : List MsIn} {es : List MsEntry}
    (h : msLoop cur (m :: rest) = some es) :
    ∃ dw tail, parseDuration (m.duration.getD "2 weeks") = some dw ∧
      msLoop (addBusinessDays cur (dw * 5) + 1) rest = some tail ∧
      es = { title := m.title.getD "Milestone", startDate := cur,
             endDate := addBusinessDays cur (dw * 5), durationDays := dw * 5,
             dependencies := m.dependencies } :: tail := by
  simp only [msLoop] at h
  split at h
  · exact absurd h (by simp)
  · rename_i dw hdw
    split at h
    · exact absurd h (by simp)
    · rename_i tail htail
      exact ⟨dw, tail, hdw, htail, (Option.some.inj h).symm⟩

theorem msLoop_dates (ms : List MsIn) : ∀ {cur : Nat} {es : List MsEntry},
    msLoop cur ms = some es →
    ∀ e ∈ es, e.startDate ≤ e.endDate ∧ (0 < e.durationDays → e.endDate % 7 < 5) := by
  induction ms with
  | nil =>
    intro cur es h e he
    simp only [msLoop, Option.some.injEq] at h
    subst h
    simp at he
  | cons m rest ih =>
    intro cur es h e he
    obtain ⟨dw, tail, _, htail, hes⟩ := msLoop_cons_inv h
    subst hes
    rcases List.mem_cons.mp he with rfl | hmem
    · refine ⟨addBusinessDays_le (dw * 5) cur, fun hpos => ?_⟩
      exact addBusinessDays_weekday (dw * 5) hpos cur
    · exact ih htail e hmem

theorem taskLoop_cons_inv {cur : Nat} {wl : List (String × Nat)} {t : TaskIn}
    {rest : List TaskIn} {es : List TaskEntry}
    (h : taskLoop cur wl (t :: rest) = some es) :
    ∃ hours assigned tail,
      parseTimeEstimate (t.time_estimate.getD "8 hours") = some hours ∧
      minByVal wl = some assigned ∧
      taskLoop (cur + max 1 (taskDaysOfHours hours / 2))
        (bumpWorkload wl assigned.1 (taskDaysOfHours hours)) rest = some tail ∧
      es = { title := t.title.getD "Task", startDate := cur,
             endDate := addBusinessDays cur (taskDaysOfHours hours),
             durationDays := taskDaysOfHours hours, assignedTo := assigned.1,
             priority := t.priority.getD "Medium",
             dependencies := t.dependencies } :: tail := by
  simp only [taskLoop] at h
  split at h
  · exact absurd h (by simp)
  · rename_i hours hhours
    split at h
    · exact absurd h (by simp)
    · rename_i assigned hassigned
      split at h
      · exact absurd h (by simp)
      · rename_i tail htail
        exact ⟨hours, assigned, tail, hhours, hassigned, htail, (Option.some.inj h).symm⟩

theorem taskLoop_dates (ts : List TaskIn) :
    ∀ {cur : Nat} {wl : List (String × Nat)} {es : List TaskEntry},
    taskLoop cur wl ts = some es →
    ∀ e ∈ es, e.startDate ≤ e.endDate ∧ e.endDate % 7 < 5 ∧ 0 < e.durationDays := by
  induction ts with
  | nil =>
    intro cur wl es h e he
    simp only [taskLoop, Option.some.injEq] at h
    subst h
    simp at he
  | cons t rest ih =>
    intro cur wl es h e he
    obtain ⟨hours, assigned, tail, _, _, htail, hes⟩ := taskLoop_cons_inv h
    subst hes
    rcases List.mem_cons.mp he with rfl | hmem
    · exact ⟨addBusinessDays_le _ cur,
        addBusinessDays_weekday _ (taskDaysOfHours_pos hours) cur,
        taskDaysOfHours_pos hours⟩
    · exact ih htail e hmem

/-- The consecutive-start relation of the task loop: each task starts
`max 1 (duration_days / 2)` calendar days after the previous one. -/
def consecutiveOffsets : List TaskEntry → Prop
  | [] => True
  | [_] => True
  | e1 :: e2 :: rest =>
      e2.startDate = e1.startDate + max 1 (e1.durationDays / 2) ∧
        consecutiveOffsets (e2 :: rest)

theorem taskLoop_head_start {cur : Nat} {wl : List (String × Nat)}
    {ts : List TaskIn} {e : TaskEntry} {tail : List TaskEntry}
    (h : taskLoop cur wl ts = some (e :: tail)) : e.startDate = cur := by
  cases ts with
  | nil =>
    simp only [taskLoop, Option.some.injEq] at h
    exact absurd h (by simp)
  | cons t rest =>
    obtain ⟨hours, assigned, tail2, _, _, _, hes⟩ := taskLoop_cons_inv h
    injection hes with h1 _
    rw [h1]

theorem taskLoop_chain (ts : List TaskIn) :
    ∀ {cur : Nat} {wl : List (String × Nat)} {es : List TaskEntry},
    taskLoop cur wl ts = some es → consecutiveOffsets es := by
  induction ts with
  | nil =>
    intro cur wl es h
    simp only [taskLoop, Option.some.injEq] at h
    subst h
    trivial
  | cons t rest ih =>
    intro cur wl es h
    obtain ⟨hours, assigned, tail, _, _, htail, hes⟩ := taskLoop_cons_inv h
    subst hes
    cases tail with
    | nil => trivial
    | cons e2 tail2 =>
      refine ⟨?_, ih htail⟩
      have h2 := taskLoop_head_start htail
      simpa using h2

/-- Equality of every field the date computation can read: the two
tasks may differ only in `dependencies`. -/
def SameButDeps (t t' : TaskIn) : Prop :=
  t.title = t'.title ∧ t.description = t'.description ∧
    t.time_estimate = t'.time_estimate ∧ t.priority = t'.priority

/-- The (start, end) date pairs of a scheduled task list. -/
def entryDates (es : List TaskEntry) : List (Nat × Nat) :=
  es.map (fun e => (e.startDate, e.endDate))

theorem taskLoop_deps_invariant {ts ts' : List TaskIn}
    (hrel : List.Forall₂ SameButDeps ts ts') :
    ∀ cur wl, (taskLoop cur wl ts).map entryDates = (taskLoop cur wl ts').map entryDates := by
  induction hrel with
  | nil => intro cur wl; rfl
  | @cons t t' rest rest' hh _ ih =>
    intro cur wl
    obtain ⟨_, _, hte, _⟩ := hh
    cases hp : parseTimeEstimate (t'.time_estimate.getD "8 hours") with
    | none => simp only [taskLoop, hte, hp]
    | some hours =>
      cases hm : minByVal wl with
      | none => simp only [taskLoop, hte, hp, hm]
      | some assigned =>
        have hrec := ih (cur + max 1 (taskDaysOfHours hours / 2))
          (bumpWorkload wl assigned.1 (taskDaysOfHours hours))
        cases h1 : taskLoop (cur + max 1 (taskDaysOfHours hours / 2))
            (bumpWorkload wl assigned.1 (taskDaysOfHours hours)) rest with
        | none =>
          cases h2 : taskLoop (cur + max 1 (taskDaysOfHours hours / 2))
              (bumpWorkload wl assigned.1 (taskDaysOfHours hours)) rest' with
          | none => simp only [taskLoop, hte, hp, hm, h1, h2]
          | some tail' => rw [h1, h2] at hrec; simp at hrec
        | some tail =>
          cases h2 : taskLoop (cur + max 1 (taskDaysOfHours hours / 2))
              (bumpWorkload wl assigned.1 (taskDaysOfHours hours)) rest' with
          | none => rw [h1, h2] at hrec; simp at hrec
          | some tail' =>
            rw [h1, h2] at hrec
            simp only [entryDates, Option.map_some', Option.some.injEq] at hrec
            simp only [taskLoop, hte, hp, hm, h1, h2, Option.map_some',
              Option.some.injEq, entryDates, List.map_cons]
            rw [hrec]

theorem msLoop_isSome (ms : List MsIn)
    (h : ∀ m ∈ ms, (parseDuration (m.duration.getD "2 weeks")).isSome) :
    ∀ cur, (msLoop cur ms).isSome := by
  induction ms with
  | nil => intro cur; simp [msLoop]
  | cons m rest ih =>
    intro cur
    have hm := h m (List.mem_cons_self m rest)
    obtain ⟨dw, hdw⟩ := Option.isSome_iff_exists.mp hm
    have hrest := ih (fun x hx => h x (List.mem_cons_of_mem m hx))
      (addBusinessDays cur (dw * 5) + 1)
    obtain ⟨tail, htail⟩ := Option.isSome_iff_exists.mp hrest
    simp [msLoop, hdw, htail]

theorem bumpWorkload_ne_nil {wl : List (String × Nat)} (h : wl ≠ [])
    (name : String) (days : Nat) : bumpWorkload wl name days ≠ [] := by
  unfold bumpWorkload
  simpa using h

theorem minByVal_isSome {wl : List (String × Nat)} (h : wl ≠ []) :
    (minByVal wl).isSome := by
  cases wl with
  | nil => exact absurd rfl h
  | cons x xs => simp [minByVal]

theorem taskLoop_isSome (ts : List TaskIn) :
    ∀ {wl : List (String × Nat)}, wl ≠ [] →
    (∀ t ∈ ts, (parseTimeEstimate (t.time_estimate.getD "8 hours")).isSome) →
    ∀ cur, (taskLoop cur wl ts).isSome := by
  induction ts with
  | nil => intro wl _ _ cur; simp [taskLoop]
  | cons t rest ih =>
    intro wl hwl h cur
    have ht := h t (List.mem_cons_self t rest)
    obtain ⟨hours, hhours⟩ := Option.isSome_iff_exists.mp ht
    obtain ⟨assigned, hassigned⟩ := Option.isSome_iff_exists.mp (minByVal_isSome hwl)
    have hrest := ih (bumpWorkload_ne_nil hwl assigned.1 (taskDaysOfHours hours))
      (fun x hx => h x (List.mem_cons_of_mem t hx))
      (cur + max 1 (taskDaysOfHours hours / 2))
    obtain ⟨tail, htail⟩ := Option.isSome_iff_exists.mp hrest
    simp [taskLoop, hhours, hassigned, htail]

theorem effortSum_isSome (ts : List TaskIn)
    (h : ∀ t ∈ ts, (parseTimeEstimate (t.time_estimate.getD "8 hours")).isSome) :
    (effortSum ts).isSome := by
  induction ts with
  | nil => simp [effortSum]
  | cons t rest ih =>
    obtain ⟨hours, hhours⟩ :=
      Option.isSome_iff_exists.mp (h t (List.mem_cons_self t rest))
    obtain ⟨s, hs⟩ := Option.isSome_iff_exists.mp
      (ih (fun x hx => h x (List.mem_cons_of_mem t hx)))
    simp [effortSum, hhours, hs]

theorem initWorkload_ne_nil {team : List String} (h : team ≠ []) :
    initWorkload team ≠ [] := by
  have grow : ∀ (l : List String) (acc : List (String × Nat)),
      acc.length ≤ ((l.foldl (fun acc n =>
        if acc.any (fun p => p.1 = n) then acc else acc ++ [(n, 0)]) acc)).length := by
    intro l
    induction l with
    | nil => intro acc; exact le_rfl
    | cons n rest ih =>
      intro acc
      refine le_trans ?_ (ih _)
      by_cases hc : (acc.any (fun p => p.1 = n)) = true
      · simp [hc]
      · simp [hc]
  cases team with
  | nil => exact absurd rfl h
  | cons n rest =>
    unfold initWorkload
    intro hcontra
    have h1 := grow rest [(n, 0)]
    simp only [List.foldl_cons] at hcontra
    have hstep : (if (([] : List (String × Nat)).any (fun p => p.1 = n)) = true
        then ([] : List (String × Nat)) else [] ++ [(n, 0)]) = [(n, 0)] := rfl
    rw [hstep] at hcontra
    rw [hcontra] at h1
    simp at h1

theorem maxListNat_isSome {l : List Nat} (h : l ≠ []) : (maxListNat l).isSome := by
  cases l with
  | nil => exact absurd rfl h
  | cons x xs => simp [maxListNat]

theorem taskLoop_length (ts : List TaskIn) :
    ∀ {cur wl es}, taskLoop cur wl ts = some es → es.length = ts.length := by
  induction ts with
  | nil =>
    intro cur wl es h
    simp only [taskLoop, Option.some.injEq] at h
    subst h; rfl
  | cons t rest ih =>
    intro cur wl es h
    obtain ⟨hours, assigned, tail, _, _, htail, hes⟩ := taskLoop_cons_inv h
    subst hes
    simp [ih htail]

theorem msLoop_length (ms : List MsIn) :
    ∀ {cur es}, msLoop cur ms = some es → es.length = ms.length := by
  induction ms with
  | nil =>
    intro cur es h
    simp only [msLoop, Option.some.injEq] at h
    subst h; rfl
  | cons m rest ih =>
    intro cur es h
    obtain ⟨dw, tail, _, htail, hes⟩ := msLoop_cons_inv h
    subst hes
    simp [ih htail]

theorem getPriorityColor_mem (p : String) :
    getPriorityColor p ∈ ["#FF4757", "#FFA502", "#2ED573", "#3498DB"] := by
  unfold getPriorityColor
  split_ifs <;> simp

end TimelineGenerator

namespace TeamManager

theorem skillMultiplier_pos (s : String) : 0 < skillMultiplier s := by
  unfold skillMultiplier
  split <;> norm_num

theorem matchTotal_nonneg_aux (l : List (String × Nat)) :
    ∀ acc : ℚ, 0 ≤ acc → 0 ≤ l.foldl (fun a p => a + (p.2 : ℚ) * skillMultiplier p.1) acc := by
  induction l with
  | nil => intro acc h; simpa using h
  | cons p rest ih =>
    intro acc h
    simp only [List.foldl_cons]
    refine ih _ ?_
    show (0 : ℚ) ≤ acc + (p.2 : ℚ) * skillMultiplier p.1
    have h1 : (0 : ℚ) ≤ (p.2 : ℚ) * skillMultiplier p.1 :=
      mul_nonneg (by positivity) (le_of_lt (skillMultiplier_pos p.1))
    linarith

theorem matchTotal_nonneg (l : List (String × Nat)) : 0 ≤ matchTotal l :=
  matchTotal_nonneg_aux l 0 le_rfl

theorem calculateSkillMatch_nonneg (t : TMTask) (m : Member) :
    0 ≤ calculateSkillMatch t m := by
  unfold calculateSkillMatch
  split
  · apply le_min
    · norm_num
    · apply div_nonneg
      · exact matchTotal_nonneg _
      · positivity
  · exact le_rfl

theorem calculateSkillMatch_le_ten (t : TMTask) (m : Member) :
    calculateSkillMatch t m ≤ 10 := by
  unfold calculateSkillMatch
  split
  · exact min_le_left _ _
  · norm_num

theorem findBestAssignee_none (t : TMTask) (wl : List (String × Nat)) :
    ∀ team : List Member, (∀ m ∈ team, calculateSkillMatch t m = 0) →
      findBestAssignee t team wl = none := by
  have aux : ∀ (team : List Member), (∀ m ∈ team, calculateSkillMatch t m = 0) →
      (team.foldl (fun best m =>
        let score := calculateSkillMatch t m - (wlHours wl m.name : ℚ) / 40 * (3/10)
        if score > best.2 then (some m, score) else best)
        ((none : Option Member), (0 : ℚ))) = (none, 0) := by
    intro team h
    induction team with
    | nil => rfl
    | cons m rest ih =>
      have hm : calculateSkillMatch t m = 0 := h m (List.mem_cons_self m rest)
      have hpen : (0 : ℚ) ≤ (wlHours wl m.name : ℚ) / 40 * (3/10) := by positivity
      have hle : ¬ (calculateSkillMatch t m - (wlHours wl m.name : ℚ) / 40 * (3/10) > 0) := by
        rw [hm]; linarith
      simp only [List.foldl_cons, if_neg hle]
      exact ih (fun x hx => h x (List.mem_cons_of_mem m hx))
  intro team h
  unfold findBestAssignee
  rw [aux team h]

end TeamManager

namespace TeamManager

theorem findBestAssignee_empty_team (t : TMTask) (wl : List (String × Nat)) :
    findBestAssignee t [] wl = none := rfl

theorem assignLoop_empty_team (ts : List TMTask) :
    ∀ wl, assignLoop [] wl ts =
      ([], wl, ts.map (fun t => "No suitable assignee found for: " ++ t.title.getD "Unknown task")) := by
  induction ts with
  | nil => intro wl; rfl
  | cons t rest ih =>
    intro wl
    simp only [assignLoop, findBestAssignee_empty_team, ih wl, List.map_cons]

theorem assignTasksToTeam_empty_team (ts : List TMTask) :
    assignTasksToTeam ts [] =
      { taskAssignments := [], teamWorkload := [],
        recommendations :=
          ts.map (fun t => "No suitable assignee found for: " ++ t.title.getD "Unknown task") } := by
  unfold assignTasksToTeam
  simp [assignLoop_empty_team]

/-- `estimateTaskHours` on an explicit `"N hours"` style estimate. -/
theorem estimateTaskHours_hour {t : TMTask} {s : String}
    (hs : t.time_estimate = some s) (hh : containsSub "hour" (strLower s) = true) :
    estimateTaskHours t = (digitsConcat (strLower s)).getD 8 := by
  simp [estimateTaskHours, hs, hh]

end TeamManager

namespace TimelineGenerator

theorem parseDuration_week {s : String}
    (hw : containsSub "week" (strLower s) = true) :
    parseDuration s = digitsConcat (strLower s) := by
  simp [parseDuration, hw]

theorem parseDuration_month {s : String}
    (hw : containsSub "week" (strLower s) = false)
    (hm : containsSub "month" (strLower s) = true) :
    parseDuration s = (digitsConcat (strLower s)).map (· * 4) := by
  simp [parseDuration, hw, hm]

theorem parseTimeEstimate_hour {s : String}
    (hh : containsSub "hour" (strLower s) = true) :
    parseTimeEstimate s = digitsConcat (strLower s) := by
  simp [parseTimeEstimate, hh]

end TimelineGenerator

namespace TaskAgent

theorem parseAiTask_fields {d : TaskDictIn} {t : TaskData}
    (h : parseAiTask d = some t) :
    t.priority = priorityOfStr d.priority ∧
      (d.estimated_hours = none → t.estimated_hours = some 8) ∧
      (∀ q, d.estimated_hours = some (PyVal.pnum q) → t.estimated_hours = some q) := by
  unfold parseAiTask at h
  cases hd : d.estimated_hours with
  | none =>
    rw [hd] at h
    have ht : t = aiTaskOf d 8 := by simpa using h.symm
    subst ht
    exact ⟨rfl, fun _ => rfl, fun q hq => absurd hq (by simp)⟩
  | some v =>
    rw [hd] at h
    cases v with
    | pbad => simp [floatOf] at h
    | pnum q0 =>
      have ht : t = aiTaskOf d q0 := by
        simpa [floatOf] using h.symm
      subst ht
      refine ⟨rfl, fun hn => absurd hn (by simp), fun q hq => ?_⟩
      have hq0 : q0 = q := PyVal.pnum.inj (Option.some.inj hq)
      rw [hq0]
      rfl

theorem parseAiTasks_spec : ∀ {ds : List TaskDictIn} {ts : List TaskData},
    parseAiTasks ds = some ts →
    List.Forall₂ (fun d t => parseAiTask d = some t) ds ts := by
  intro ds
  induction ds with
  | nil =>
    intro ts h
    simp only [parseAiTasks, Option.some.injEq] at h
    subst h
    exact List.Forall₂.nil
  | cons d rest ih =>
    intro ts h
    simp only [parseAiTasks] at h
    split at h
    · exact absurd h (by simp)
    · rename_i t ht
      split at h
      · exact absurd h (by simp)
      · rename_i tail htail
        have : ts = t :: tail := (Option.some.inj h).symm
        subst this
        exact List.Forall₂.cons ht (ih htail)

theorem adjustTask_hours_pos {t : TaskData} {f : ℚ} (hf : 0 < f) (b : Bool)
    (h : ∃ q, t.estimated_hours = some q ∧ 0 < q) :
    ∃ q, (adjustTask f b t).estimated_hours = some q ∧ 0 < q := by
  obtain ⟨q, hq, hpos⟩ := h
  exact ⟨q * f, by simp [adjustTask, hq], mul_pos hpos hf⟩

theorem baseTasksOf_hours_pos (ctx : Ctx) :
    ∀ t ∈ baseTasksOf ctx, ∃ q, t.estimated_hours = some q ∧ 0 < q := by
  intro t ht
  simp only [baseTasksOf, List.mem_cons, List.not_mem_nil, or_false] at ht
  rcases ht with rfl | rfl
  · exact ⟨_, rfl, by split <;> norm_num⟩
  · exact ⟨_, rfl, by split <;> norm_num⟩

theorem domainTasksOf_hours_pos (ctx : Ctx) :
    ∀ t ∈ domainTasksOf ctx, ∃ q, t.estimated_hours = some q ∧ 0 < q := by
  intro t ht
  unfold domainTasksOf at ht
  split at ht
  · simp only [List.mem_cons, List.not_mem_nil, or_false] at ht
    rcases ht with rfl | rfl | rfl <;> exact ⟨_, rfl, by norm_num⟩
  · split at ht
    · simp only [List.mem_cons, List.not_mem_nil, or_false] at ht
      rcases ht with rfl | rfl | rfl <;> exact ⟨_, rfl, by norm_num⟩
    · split at ht
      · simp only [List.mem_cons, List.not_mem_nil, or_false] at ht
        rcases ht with rfl | rfl <;> exact ⟨_, rfl, by norm_num⟩
      · simp at ht

theorem commonTasksOf_hours_pos (ctx : Ctx) :
    ∀ t ∈ commonTasksOf ctx, ∃ q, t.estimated_hours = some q ∧ 0 < q := by
  intro t ht
  simp only [commonTasksOf, List.mem_cons, List.not_mem_nil, or_false] at ht
  rcases ht with rfl | rfl | rfl
  · exact ⟨_, rfl, by split <;> norm_num⟩
  · exact ⟨_, rfl, by split <;> norm_num⟩
  · exact ⟨_, rfl, by norm_num⟩

theorem allTasksOf_hours_pos (ctx : Ctx) :
    ∀ t ∈ allTasksOf ctx, ∃ q, t.estimated_hours = some q ∧ 0 < q := by
  intro t ht
  unfold allTasksOf at ht
  rcases List.mem_append.mp ht with h1 | h2
  · rcases List.mem_append.mp h1 with hb | hd
    · exact baseTasksOf_hours_pos ctx t hb
    · exact domainTasksOf_hours_pos ctx t hd
  · exact commonTasksOf_hours_pos ctx t h2

theorem fallbackTasks_hours_pos (ctx : Ctx) :
    ∀ t ∈ fallbackTasks ctx, ∃ q, t.estimated_hours = some q ∧ 0 < q := by
  intro t ht
  unfold fallbackTasks at ht
  split at ht
  · exact allTasksOf_hours_pos ctx t ht
  · split at ht
    · obtain ⟨t0, ht0, rfl⟩ := List.mem_map.mp ht
      exact adjustTask_hours_pos (by norm_num) true (allTasksOf_hours_pos ctx t0 ht0)
    · split at ht
      · obtain ⟨t0, ht0, rfl⟩ := List.mem_map.mp ht
        exact adjustTask_hours_pos (by norm_num) false (allTasksOf_hours_pos ctx t0 ht0)
      · exact allTasksOf_hours_pos ctx t ht

theorem allTasksOf_length (ctx : Ctx) : 5 ≤ (allTasksOf ctx).length := by
  unfold allTasksOf baseTasksOf commonTasksOf
  simp [List.length_append]

theorem fallbackTasks_ne_nil (ctx : Ctx) : fallbackTasks ctx ≠ [] := by
  have h5 := allTasksOf_length ctx
  have hpos : 0 < (allTasksOf ctx).length := by omega
  unfold fallbackTasks
  split
  · exact List.ne_nil_of_length_pos hpos
  · split
    · apply List.ne_nil_of_length_pos
      simpa using hpos
    · split
      · apply List.ne_nil_of_length_pos
        simpa using hpos
      · exact List.ne_nil_of_length_pos hpos

end TaskAgent

namespace TimelineGenerator

/-- Inversion of a successful `generate_project_timeline` run: the two
timeline blocks come from the two scheduling loops. -/
theorem generateProjectTimeline_inv {ms : List MsIn} {ts : List TaskIn}
    {team : List String} {start : Nat} {tl : Timeline}
    (h : generateProjectTimeline ms ts team start = some tl) :
    msLoop start ms = some tl.milestonesTimeline ∧
      taskLoop start (initWorkload team) ts = some tl.tasksTimeline := by
  unfold generateProjectTimeline at h
  split at h
  · exact absurd h (by simp)
  · rename_i msT hmsT
    split at h
    · exact absurd h (by simp)
    · rename_i tsT htsT
      split at h
      · exact absurd h (by simp)
      · rename_i lastTaskEnd hlt
        split at h
        · exact absurd h (by simp)
        · rename_i lastMsEnd hlm
          split at h
          · exact absurd h (by simp)
          · rename_i effort heff
            have htl := (Option.some.inj h).symm
            subst htl
            exact ⟨hmsT, htsT⟩

end TimelineGenerator

/-! ## Claims -/

open TimelineGenerator TeamManager

/-- C2, counterexample: `generate_project_timeline` does NOT return a
timeline for every input — with an empty task list (and empty milestone
list and team) the `max()` calls raise `ValueError`, and with a
non-empty task list but an empty team the `min()` over the empty
workload dict raises; both runs are `none`, so the claim that the
scheduler always returns a complete timeline is false. -/
theorem C2_counterexample :
    TimelineGenerator.generateProjectTimeline [] [] [] 0 = none ∧
      TimelineGenerator.generateProjectTimeline
        [⟨some "M", none, some "2 weeks", []⟩]
        [⟨some "T", none, some "8 hours", none, []⟩] [] 0 = none :=
  ⟨rfl, rfl⟩

/-- C2 (amended): the scheduler returns a complete timeline whenever the
milestone list, task list and team are all non-empty and every duration
or time-estimate string that carries a unit keyword contains a digit; it
raises (returns `none`) on an empty task list, an empty milestone list,
or an empty team with at least one task, contrary to the always-return
principle in the spec. -/
theorem C2_amended (ms : List MsIn) (ts : List TaskIn) (team : List String)
    (start : Nat) (hts : ts ≠ []) (hms : ms ≠ []) (hteam : team ≠ [])
    (hp1 : ∀ m ∈ ms, (parseDuration (m.duration.getD "2 weeks")).isSome)
    (hp2 : ∀ t ∈ ts, (parseTimeEstimate (t.time_estimate.getD "8 hours")).isSome) :
    (TimelineGenerator.generateProjectTimeline ms ts team start).isSome := by
  obtain ⟨msT, hmsT⟩ := Option.isSome_iff_exists.mp (msLoop_isSome ms hp1 start)
  obtain ⟨tsT, htsT⟩ := Option.isSome_iff_exists.mp
    (taskLoop_isSome ts (initWorkload_ne_nil hteam) hp2 start)
  have htsT_ne : tsT ≠ [] := by
    intro hcontra
    have hlen := taskLoop_length ts htsT
    rw [hcontra] at hlen
    exact hts (List.eq_nil_of_length_eq_zero hlen.symm)
  have hmsT_ne : msT ≠ [] := by
    intro hcontra
    have hlen := msLoop_length ms hmsT
    rw [hcontra] at hlen
    exact hms (List.eq_nil_of_length_eq_zero hlen.symm)
  have h1 : (tsT.map (fun e => e.endDate)) ≠ [] := by
    simpa using htsT_ne
  have h2 : (msT.map (fun e => e.endDate)) ≠ [] := by
    simpa using hmsT_ne
  obtain ⟨lt, hlt⟩ := Option.isSome_iff_exists.mp (maxListNat_isSome h1)
  obtain ⟨lm, hlm⟩ := Option.isSome_iff_exists.mp (maxListNat_isSome h2)
  obtain ⟨eff, heff⟩ := Option.isSome_iff_exists.mp (effortSum_isSome ts hp2)
  simp [generateProjectTimeline, hmsT, htsT, hlt, hlm, heff]

/-- C2 witness: a fully non-degenerate run produces a timeline. -/
theorem C2_witness :
    (TimelineGenerator.generateProjectTimeline
      [⟨some "M", none, some "2 weeks", []⟩]
      [⟨some "T", none, some "8 hours", none, []⟩] ["bob"] 0).isSome :=
  C2_amended _ _ _ 0 (by decide) (by decide) (by decide) (by decide) (by decide)

/-- C3, counterexample: start dates can land on a weekend.  With the
project starting on day 4 — a Friday, itself a business day — the first
milestone (`"1 week"`) ends on day 11, the following Friday, and the
second milestone starts the next calendar day, day 12, a Saturday
(12 % 7 = 5).  So "no returned start_date or end_date falls on a
Saturday or Sunday" is false. -/
theorem C3_counterexample :
    (TimelineGenerator.generateProjectTimeline
        [⟨some "M1", none, some "1 week", []⟩, ⟨some "M2", none, some "1 week", []⟩]
        [⟨some "T1", none, some "8 hours", none, []⟩] ["alice"] 4).map
      (fun tl => tl.milestonesTimeline.map (fun e => e.startDate)) = some [4, 12] ∧
      (12 : Nat) % 7 = 5 ∧ (4 : Nat) % 7 = 4 :=
  ⟨rfl, rfl, rfl⟩

/-- C3 (amended): in every returned timeline, every milestone and task
entry satisfies `end_date ≥ start_date`; every task end date falls on a
weekday, as does every milestone end date of positive duration.  Start
dates (and the end dates of zero-duration milestones) can fall on
weekends. -/
theorem C3_amended (ms : List MsIn) (ts : List TaskIn) (team : List String)
    (start : Nat) (msEs : List MsEntry) (tsEs : List TaskEntry)
    (h : (TimelineGenerator.generateProjectTimeline ms ts team start).map
        (fun tl => (tl.milestonesTimeline, tl.tasksTimeline)) = some (msEs, tsEs)) :
    (∀ e ∈ msEs,
        e.startDate ≤ e.endDate ∧ (0 < e.durationDays → e.endDate % 7 < 5)) ∧
      (∀ e ∈ tsEs, e.startDate ≤ e.endDate ∧ e.endDate % 7 < 5) := by
  obtain ⟨tl, htl, hproj⟩ := Option.map_eq_some'.mp h
  obtain ⟨hms, hts⟩ := generateProjectTimeline_inv htl
  have h1 : tl.milestonesTimeline = msEs := congrArg Prod.fst hproj
  have h2 : tl.tasksTimeline = tsEs := congrArg Prod.snd hproj
  rw [h1] at hms
  rw [h2] at hts
  exact ⟨msLoop_dates ms hms, fun e he => ⟨(taskLoop_dates ts hts e he).1,
    (taskLoop_dates ts hts e he).2.1⟩⟩

/-- C3 witness: the amended invariants on a concrete run. -/
theorem C3_witness :
    (∀ e ∈ ([⟨"M", 0, 14, 10, []⟩] : List MsEntry),
        e.startDate ≤ e.endDate ∧ (0 < e.durationDays → e.endDate % 7 < 5)) ∧
      (∀ e ∈ ([⟨"T", 0, 1, 1, "bob", "Medium", []⟩] : List TaskEntry),
        e.startDate ≤ e.endDate ∧ e.endDate % 7 < 5) :=
  C3_amended [⟨some "M", none, some "2 weeks", []⟩]
    [⟨some "T", none, some "8 hours", none, []⟩] ["bob"] 0 _ _ (by decide)

/-- C5: duration parsing in the scheduler.  `"2 weeks"` becomes 10
business days (ending exactly 10 business days after the start),
`"3 months"` 60 business days, `"8 hours"` one day, `"16 hours"` two
days; in general a weeks string parses to its digit concatenation `N`
with the milestone loop scheduling `N * 5` business days, a months
string to `N * 4` weeks, and an `N`-hour estimate to
`max 1 ⌊(N / 8) / 0.8⌋ = max 1 (5 N / 32)` days. -/
theorem C5_duration_parsing :
    ((msLoop 0 [⟨some "M", none, some "2 weeks", []⟩]) =
        some [⟨"M", 0, 14, 10, []⟩] ∧ addBusinessDays 0 10 = 14) ∧
      (msLoop 0 [⟨some "M", none, some "3 months", []⟩]).map
        (fun es => es.map (fun e => e.durationDays)) = some [60] ∧
      (taskLoop 0 [("a", 0)] [⟨some "T", none, some "8 hours", none, []⟩]).map
        (fun es => es.map (fun e => e.durationDays)) = some [1] ∧
      (taskLoop 0 [("a", 0)] [⟨some "T", none, some "16 hours", none, []⟩]).map
        (fun es => es.map (fun e => e.durationDays)) = some [2] ∧
      (∀ s n, containsSub "week" (strLower s) = true →
        digitsConcat (strLower s) = some n → parseDuration s = some n) ∧
      (∀ s n, containsSub "week" (strLower s) = false →
        containsSub "month" (strLower s) = true →
        digitsConcat (strLower s) = some n → parseDuration s = some (n * 4)) ∧
      (∀ cur m rest e tail dw,
        msLoop cur ((m : MsIn) :: rest) = some (e :: tail) →
        parseDuration (m.duration.getD "2 weeks") = some dw →
        e.durationDays = dw * 5) ∧
      (∀ h, taskDaysOfHours h = max 1 (Nat.floor (((h : ℚ) / 8) / (4 / 5)))) := by
  refine ⟨⟨by decide, by decide⟩, by decide, by decide, by decide, ?_, ?_, ?_, taskDaysOfHours_floor⟩
  · intro s n hw hd
    rw [parseDuration_week hw, hd]
  · intro s n hw hm hd
    rw [parseDuration_month hw hm, hd]
    rfl
  · intro cur m rest e tail dw h hdw
    obtain ⟨dw2, tail2, hdw2, _, hes⟩ := msLoop_cons_inv h
    have hdweq : dw2 = dw := Option.some.inj (hdw2.symm.trans hdw)
    injection hes with h1 _
    rw [h1, hdweq]

/-- C5 witness: the general formulas applied to the concrete strings. -/
theorem C5_witness :
    parseDuration "2 weeks" = some 2 ∧ parseDuration "3 months" = some 12 ∧
      taskDaysOfHours 8 = max 1 (Nat.floor (((8 : ℚ) / 8) / (4 / 5))) :=
  ⟨C5_duration_parsing.2.2.2.2.1 "2 weeks" 2 (by decide) (by decide),
    C5_duration_parsing.2.2.2.2.2.1 "3 months" 3 (by decide) (by decide) (by decide),
    C5_duration_parsing.2.2.2.2.2.2.2 8⟩

/-- C6, counterexample: the offset between consecutive task start dates
is CALENDAR days, not business days.  Starting Friday (day 4), the
first task (`"16 hours"`, 2 working days) makes the second task start at
day 4 + max(1, 2 // 2) = 5, a Saturday — business-day advancement would
have produced day 7 (Monday). -/
theorem C6_counterexample :
    (TimelineGenerator.generateProjectTimeline
        [⟨some "M", none, some "2 weeks", []⟩]
        [⟨some "T1", none, some "16 hours", none, []⟩,
         ⟨some "T2", none, some "8 hours", none, []⟩] ["carol"] 4).map
      (fun tl => tl.tasksTimeline.map (fun e => e.startDate)) = some [4, 5] ∧
      addBusinessDays 4 1 = 7 ∧ (5 : Nat) ≠ 7 :=
  ⟨rfl, rfl, by decide⟩

/-- C6 (amended): each subsequent task starts
`max 1 (duration_days / 2)` CALENDAR days (plain `timedelta`) after the
previous task's start, and declared task dependencies never affect any
computed start or end date. -/
theorem C6_amended :
    (∀ ms ts team start tsEs,
        (TimelineGenerator.generateProjectTimeline ms ts team start).map
          (fun tl => tl.tasksTimeline) = some tsEs →
        consecutiveOffsets tsEs) ∧
      (∀ ts ts', List.Forall₂ SameButDeps ts ts' → ∀ cur wl,
        (taskLoop cur wl ts).map entryDates = (taskLoop cur wl ts').map entryDates) := by
  constructor
  · intro ms ts team start tsEs h
    obtain ⟨tl, htl, hproj⟩ := Option.map_eq_some'.mp h
    have hts := (generateProjectTimeline_inv htl).2
    rw [hproj] at hts
    exact taskLoop_chain ts hts
  · intro ts ts' hrel cur wl
    exact taskLoop_deps_invariant hrel cur wl

/-- C6 witness: the consecutive-offset relation on a concrete run, and
dependency-blindness on a concrete task pair differing only in
`dependencies`. -/
theorem C6_witness :
    consecutiveOffsets
      [⟨"T1", 4, 8, 2, "carol", "Medium", []⟩, ⟨"T2", 5, 7, 1, "carol", "Medium", []⟩] ∧
      (taskLoop 0 [("a", 0)]
          [⟨some "T", none, some "8 hours", none, ["X"]⟩]).map entryDates =
        (taskLoop 0 [("a", 0)]
          [⟨some "T", none, some "8 hours", none, []⟩]).map entryDates :=
  ⟨C6_amended.1 [⟨some "M", none, some "2 weeks", []⟩]
      [⟨some "T1", none, some "16 hours", none, []⟩,
       ⟨some "T2", none, some "8 hours", none, []⟩] ["carol"] 4
      [⟨"T1", 4, 8, 2, "carol", "Medium", []⟩, ⟨"T2", 5, 7, 1, "carol", "Medium", []⟩]
      (by decide),
   C6_amended.2 _ _
     (List.Forall₂.cons ⟨rfl, rfl, rfl, rfl⟩ List.Forall₂.nil) 0 [("a", 0)]⟩

/-- C4, counterexample: the skill-match score is NOT
`10 * |required ∩ member.skills| / |required|`.  The spec's own
scenario — a task requiring `payment_integration` and `security`
matched against a member with those skills at levels 8 and 7 — scores
`min(10, (8·1.0 + 7·1.0) / 2) = 7.5`, not 10.0, even when the task
text mentions both skill names. -/
theorem C4_counterexample :
    TeamManager.calculateSkillMatch
        ⟨some "payment_integration security", some "", none, none,
         ["payment_integration", "security"]⟩
        ⟨"Jordan", "Backend Developer",
         [("payment_integration", 8), ("security", 7)]⟩ = 15 / 2 ∧
      (15 / 2 : ℚ) ≠ 10 := by
  constructor
  · have hm : matchedSkills
        ⟨some "payment_integration security", some "", none, none,
         ["payment_integration", "security"]⟩
        ⟨"Jordan", "Backend Developer",
         [("payment_integration", 8), ("security", 7)]⟩ =
        [("payment_integration", 8), ("security", 7)] := by decide
    have h1 : skillMultiplier "payment_integration" = 1 := rfl
    have h2 : skillMultiplier "security" = 1 := rfl
    rw [calculateSkillMatch, hm]
    norm_num [matchTotal, List.foldl, h1, h2, min_def]
  · norm_num

/-- C4 (amended): `_calculate_skill_match` ignores `skills_required`
entirely — the score depends only on the task's title and description
text.  It averages level × multiplier over the member skills whose name
(or underscore-to-space variant) occurs in that text, capped at 10, and
is 0 when nothing matches; it always lies in [0, 10].  The spec's
scenario scores 7.5 when the text mentions both skills and 0 when it
mentions neither — never the claimed 10.0. -/
theorem C4_amended :
    (∀ t t' m, t.title = t'.title → t.description = t'.description →
        TeamManager.calculateSkillMatch t m = TeamManager.calculateSkillMatch t' m) ∧
      (∀ t m, 0 ≤ TeamManager.calculateSkillMatch t m ∧
        TeamManager.calculateSkillMatch t m ≤ 10) ∧
      TeamManager.calculateSkillMatch
        ⟨some "Integrate payment integration and security checks", some "",
         none, none, ["payment_integration", "security"]⟩
        ⟨"Casey", "Backend Developer",
         [("payment_integration", 8), ("security", 7)]⟩ = 15 / 2 ∧
      TeamManager.calculateSkillMatch
        ⟨some "checkout flow", some "", none, none,
         ["payment_integration", "security"]⟩
        ⟨"Casey", "Backend Developer",
         [("payment_integration", 8), ("security", 7)]⟩ = 0 := by
  refine ⟨?_, fun t m => ⟨calculateSkillMatch_nonneg t m, calculateSkillMatch_le_ten t m⟩,
    ?_, ?_⟩
  · intro t t' m h1 h2
    unfold calculateSkillMatch matchedSkills taskTextOf
    rw [h1, h2]
  · have hm : matchedSkills
        ⟨some "Integrate payment integration and security checks", some "",
         none, none, ["payment_integration", "security"]⟩
        ⟨"Casey", "Backend Developer",
         [("payment_integration", 8), ("security", 7)]⟩ =
        [("payment_integration", 8), ("security", 7)] := by decide
    have h1 : skillMultiplier "payment_integration" = 1 := rfl
    have h2 : skillMultiplier "security" = 1 := rfl
    rw [calculateSkillMatch, hm]
    norm_num [matchTotal, List.foldl, h1, h2, min_def]
  · have hm : matchedSkills
        ⟨some "checkout flow", some "", none, none,
         ["payment_integration", "security"]⟩
        ⟨"Casey", "Backend Developer",
         [("payment_integration", 8), ("security", 7)]⟩ = [] := by decide
    rw [calculateSkillMatch, hm]
    norm_num

/-- C4 witness: text-only dependence and the lower bound, at concrete
inputs. -/
theorem C4_witness :
    TeamManager.calculateSkillMatch ⟨some "api work", some "", none, none, ["x"]⟩
        ⟨"Riley", "Dev", [("python", 7)]⟩ =
      TeamManager.calculateSkillMatch
        ⟨some "api work", some "", some "4 hours", some "High", ["y", "z"]⟩
        ⟨"Riley", "Dev", [("python", 7)]⟩ ∧
      0 ≤ TeamManager.calculateSkillMatch ⟨some "api work", some "", none, none, ["x"]⟩
        ⟨"Riley", "Dev", [("python", 7)]⟩ :=
  ⟨C4_amended.1 _ _ _ rfl rfl, (C4_amended.2.1 _ _).1⟩

/-- C7, counterexample: with an empty team the task is recorded as
unassigned and nothing is thrown, but the recorded reason string is
`"No suitable assignee found for: <title>"`, not the claimed
`"No suitable team member"`. -/
theorem C7_counterexample :
    (TeamManager.assignTasksToTeam [⟨some "X", none, none, none, []⟩] []).recommendations =
      ["No suitable assignee found for: X"] ∧
      ("No suitable assignee found for: X" : String) ≠ "No suitable team member" :=
  ⟨by decide, by decide⟩

/-- C7 (amended): `assign_tasks_to_team` never throws: with an empty
team every task is left unassigned and one recommendation string
`"No suitable assignee found for: <title>"` is recorded per task; and a
task for which no member has any positive skill match is left
unassigned (`_find_best_assignee` returns no one). -/
theorem C7_amended :
    (∀ ts : List TeamManager.TMTask,
        (TeamManager.assignTasksToTeam ts []).taskAssignments = [] ∧
        (TeamManager.assignTasksToTeam ts []).recommendations =
          ts.map (fun t => "No suitable assignee found for: " ++ t.title.getD "Unknown task")) ∧
      (∀ t team wl, (∀ m ∈ team, TeamManager.calculateSkillMatch t m = 0) →
        TeamManager.findBestAssignee t team wl = none) := by
  constructor
  · intro ts
    rw [assignTasksToTeam_empty_team]
    exact ⟨rfl, rfl⟩
  · intro t team wl h
    exact findBestAssignee_none t wl team h

/-- C7 witness: the amended behaviour at concrete inputs. -/
theorem C7_witness :
    (TeamManager.assignTasksToTeam
        [⟨some "A", none, none, none, []⟩, ⟨some "B", none, none, none, []⟩]
        []).taskAssignments = [] ∧
      TeamManager.findBestAssignee ⟨some "T", none, none, none, []⟩
        [⟨"Quinn", "Dev", [("python", 9)]⟩] [] = none :=
  ⟨(C7_amended.1 _).1, C7_amended.2 _ _ _ (by decide)⟩

/-- C9, counterexample: the priority→colour table has only three
entries — `urgent` is NOT in it and receives exactly the neutral
default `#3498DB`, the same colour as an arbitrary unknown priority;
a Gantt projection of an urgent task shows the default colour. -/
theorem C9_counterexample :
    TimelineGenerator.getPriorityColor "urgent" = "#3498DB" ∧
      TimelineGenerator.getPriorityColor "nonexistent-priority" = "#3498DB" ∧
      (TimelineGenerator.generateProjectTimeline [⟨some "M", none, some "2 weeks", []⟩]
          [⟨some "T", none, none, some "urgent", []⟩] ["dave"] 0).map
        (fun tl => (generateGanttChartData tl).tasks.map (fun r => r.color)) =
        some ["#3498DB"] :=
  ⟨rfl, rfl, by decide⟩

/-- C9 (amended): every Gantt task record's colour comes from the
three-entry case-insensitive table (high `#FF4757`, medium `#FFA502`,
low `#2ED573`) or is the neutral default `#3498DB`; `urgent` is not in
the table and gets the default, as does any unknown priority (a missing
priority has already defaulted to the string `"Medium"` upstream). -/
theorem C9_amended :
    (∀ tl : Timeline, ∀ r ∈ (generateGanttChartData tl).tasks,
        r.color ∈ ["#FF4757", "#FFA502", "#2ED573", "#3498DB"]) ∧
      TimelineGenerator.getPriorityColor "high" = "#FF4757" ∧
      TimelineGenerator.getPriorityColor "HIGH" = "#FF4757" ∧
      TimelineGenerator.getPriorityColor "medium" = "#FFA502" ∧
      TimelineGenerator.getPriorityColor "Medium" = "#FFA502" ∧
      TimelineGenerator.getPriorityColor "low" = "#2ED573" ∧
      TimelineGenerator.getPriorityColor "urgent" = "#3498DB" := by
  refine ⟨?_, rfl, rfl, rfl, rfl, rfl, rfl⟩
  intro tl r hr
  have htasks : (generateGanttChartData tl).tasks =
      tl.tasksTimeline.map (fun t =>
        { id := "task", name := t.title, start := t.startDate,
          stop := t.endDate, color := getPriorityColor t.priority }) := rfl
  rw [htasks] at hr
  obtain ⟨e, _, rfl⟩ := List.mem_map.mp hr
  exact getPriorityColor_mem e.priority

/-- C9 witness: the colour bound on a concrete Gantt record of an
urgent task. -/
theorem C9_witness :
    (⟨"task", "T", 0, 1, "#3498DB"⟩ : GanttRec).color ∈
      ["#FF4757", "#FFA502", "#2ED573", "#3498DB"] :=
  C9_amended.1
    { projectStart := 0, milestonesTimeline := [],
      tasksTimeline := [⟨"T", 0, 1, 1, "dave", "urgent", []⟩],
      teamAssignments := [], projectSummary := ⟨0, 0, 0, 0, 0, 0⟩ }
    ⟨"task", "T", 0, 1, "#3498DB"⟩ (by decide)

/-- C10: every parser reads the number as the concatenation of all
digit characters anywhere in the string, so `"1.5 hours"` is 15 hours
and `"2.5 weeks"` is 25 weeks (1000 hours in the team manager's
estimator): fractional and multi-number estimates are silently misread,
never rejected. -/
theorem C10_digit_concatenation :
    (∀ s n, containsSub "hour" (strLower s) = true →
        digitsConcat (strLower s) = some n →
        TimelineGenerator.parseTimeEstimate s = some n) ∧
      (∀ (t : TeamManager.TMTask) s n, t.time_estimate = some s →
        containsSub "hour" (strLower s) = true →
        digitsConcat (strLower s) = some n → TeamManager.estimateTaskHours t = n) ∧
      TimelineGenerator.parseTimeEstimate "1.5 hours" = some 15 ∧
      TimelineGenerator.parseDuration "2.5 weeks" = some 25 ∧
      TeamManager.estimateTaskHours ⟨some "T", none, some "1.5 hours", none, []⟩ = 15 ∧
      TeamManager.estimateTaskHours ⟨some "T", none, some "2.5 weeks", none, []⟩ = 1000 := by
  refine ⟨?_, ?_, by decide, by decide, by decide, by decide⟩
  · intro s n hh hd
    rw [parseTimeEstimate_hour hh, hd]
  · intro t s n hts hh hd
    rw [estimateTaskHours_hour hts hh, hd]
    rfl

/-- C10 witness: the digit-concatenation formulas at concrete inputs. -/
theorem C10_witness :
    TimelineGenerator.parseTimeEstimate "40 hours" = some 40 ∧
      TeamManager.estimateTaskHours ⟨some "T", none, some "12 hours", none, []⟩ = 12 :=
  ⟨C10_digit_concatenation.1 "40 hours" 40 (by decide) (by decide),
    C10_digit_concatenation.2.1 _ "12 hours" 12 rfl (by decide) (by decide)⟩

/-- C1, counterexample: on the AI-parse path the generator can return an
EMPTY task list (a parsed empty JSON array is passed through verbatim),
and a non-positive `estimated_hours` — here 0 — is passed through
unclamped: no defaulting to 8.0 happens for values that coerce.  So
"never returns an empty list" and "estimated_hours > 0" both fail on
the AI path. -/
theorem C1_counterexample :
    TaskAgent.generateIntelligentTasks ⟨"P", "general", "medium", none⟩ (some []) = [] ∧
      TaskAgent.generateIntelligentTasks ⟨"P", "general", "medium", none⟩
        (some [⟨none, none, none, some (TaskAgent.PyVal.pnum 0), none, none⟩]) =
        [⟨"Untitled Task", "", TaskAgent.Priority.medium, some 0, [], []⟩] ∧
      ¬ (0 : ℚ) > 0 :=
  ⟨rfl, rfl, by norm_num⟩

/-- C1 (amended): the template-fallback path satisfies the claim — it
always returns a non-empty list whose tasks all have positive hours —
and the priority mapping is case-insensitive with default medium on
both paths.  On the AI path, however, hours default to 8.0 only when
the field is MISSING and are otherwise passed through unchanged (no
positivity clamp; a non-coercible value aborts the whole parse and
substitutes the full template fallback), and the output has exactly one
task per parsed object, so an empty parsed array yields an empty
result. -/
theorem C1_amended :
    (∀ ctx, TaskAgent.generateIntelligentTasks ctx none = TaskAgent.fallbackTasks ctx ∧
        TaskAgent.fallbackTasks ctx ≠ [] ∧
        ∀ t ∈ TaskAgent.fallbackTasks ctx, ∃ q, t.estimated_hours = some q ∧ 0 < q) ∧
      (∀ ctx ds, TaskAgent.parseAiTasks ds = none →
        TaskAgent.generateIntelligentTasks ctx (some ds) = TaskAgent.fallbackTasks ctx) ∧
      (∀ ctx ds ts, TaskAgent.parseAiTasks ds = some ts →
        TaskAgent.generateIntelligentTasks ctx (some ds) = ts ∧
        ts.length = ds.length ∧
        List.Forall₂ (fun d t => t.priority = TaskAgent.priorityOfStr d.priority ∧
          (d.estimated_hours = none → t.estimated_hours = some 8) ∧
          ∀ q, d.estimated_hours = some (TaskAgent.PyVal.pnum q) →
            t.estimated_hours = some q) ds ts) := by
  refine ⟨fun ctx => ⟨rfl, TaskAgent.fallbackTasks_ne_nil ctx,
    TaskAgent.fallbackTasks_hours_pos ctx⟩, ?_, ?_⟩
  · intro ctx ds h
    simp [TaskAgent.generateIntelligentTasks, h]
  · intro ctx ds ts h
    refine ⟨by simp [TaskAgent.generateIntelligentTasks, h], ?_, ?_⟩
    · exact (TaskAgent.parseAiTasks_spec h).length_eq.symm
    · exact List.Forall₂.imp (fun d t hp => TaskAgent.parseAiTask_fields hp)
        (TaskAgent.parseAiTasks_spec h)

/-- C1 witness: a successfully parsed AI task with an uppercase
priority string comes through with its own hours and a case-insensitive
priority. -/
theorem C1_witness :
    TaskAgent.generateIntelligentTasks ⟨"P", "general", "medium", none⟩
        (some [⟨some "T", none, some "HIGH", some (TaskAgent.PyVal.pnum 5), none, none⟩]) =
      [⟨"T", "", TaskAgent.Priority.high, some 5, [], []⟩] :=
  (C1_amended.2.2 _ _ _ (by decide)).1

/-- C8, counterexample: a mission containing "ecommerce platform" and
"24 weeks" does get `domain = ecommerce`, but the task agent's three
timeline patterns all require framing (`timeline:`/`duration:`,
`within`, or `week project`), so the bare phrase "in 24 weeks" leaves
its extracted timeline unset (`None`, not 24 — and not the default 8,
which belongs to the milestone agent's extractor). -/
theorem C8_counterexample :
    TaskAgent.extractDomain "Build an ecommerce platform in 24 weeks." = "ecommerce" ∧
      TaskAgent.extractTimelineWeeks "Build an ecommerce platform in 24 weeks." = none :=
  ⟨rfl, rfl⟩

/-- C8 (amended): a mission mentioning "ecommerce platform" (and no
blockchain keyword) gets `domain = ecommerce`.  The milestone agent's
extractor — patterns tried in fixed order `<N> weeks`, `<N> months`
(×4), `<N> days` (`max 1 (N / 7)`, not a bare floor), default 8 — does
read the bare "24 weeks" as 24; the task agent's extractor yields 24
only for framed phrases such as "within 24 weeks" or
"Timeline: 24 weeks", and `None` otherwise. -/
theorem C8_amended :
    TaskAgent.extractDomain "Build an ecommerce platform in 24 weeks." = "ecommerce" ∧
      MilestoneAgent.estimatedWeeks "Build an ecommerce platform in 24 weeks." = 24 ∧
      TaskAgent.extractTimelineWeeks "Build an ecommerce platform within 24 weeks." =
        some 24 ∧
      TaskAgent.extractDomain "Build an ecommerce platform within 24 weeks." =
        "ecommerce" ∧
      TaskAgent.extractTimelineWeeks "Timeline: 24 weeks for the shop" = some 24 ∧
      MilestoneAgent.estimatedWeeks "an ecommerce platform due in 6 months" = 24 ∧
      MilestoneAgent.estimatedWeeks "ship in 10 days" = 1 ∧
      MilestoneAgent.estimatedWeeks "no timing information" = 8 :=
  ⟨rfl, rfl, rfl, rfl, rfl, rfl, rfl, rfl⟩

end Planner
